import Mathlib

/-!
Verification development for the multi-protocol swap bot.

The repository has two variants of the bot:

* `src/multi_protocol_bot.ts` — the multi-provider version.  Its
  `executeSwap` walks a fixed provider chain (DFlow, Raydium, Jupiter,
  OKX DEX declared in the constructor), skipping providers with
  `available = false`, invoking each eligible provider at most once, and
  stopping at the first one whose quote *and* transaction submission
  both succeed; any caught error (from the quote call or from
  `sendRawTransaction`) is logged as a failure of that provider and the
  loop moves to the next provider.  On submission success it increments
  `this.dailyTxCount` and returns `true`; when the chain is exhausted it
  returns `false`.  The `start` loop calls `resetDailyCounter`, gates on
  `isWorkTime` and on `dailyTxCount >= 120`, shuffles the wallets with
  `sort(() => Math.random() - 0.5)`, and for each wallet performs a
  forward swap SOL → target and, only if the forward leg returned
  `true`, waits a random dwell and performs a hedge swap
  target → SOL for `amount * 0.995`.

* `src/unnamed/part_000` — an earlier single-provider (Jupiter only)
  variant whose `fetchWithRetry` retries an operation whose lowercased
  error message mentions socket / timeout / proxy / network /
  econnreset / econnrefused, up to `maxRetries` (default 3) total
  attempts with backoff `2000 * (attempt + 1)` milliseconds, and
  rethrows any other error immediately.

The definitions below are a shallow embedding of this code.  External
randomness (shuffle comparator results, chosen target mint, amount,
dwell/delay durations) and the outcomes of the external HTTP calls are
passed in as explicit script parameters; wall-clock time is a natural
number of seconds of local (Asia/Shanghai) time, advanced exactly at the
explicit `setTimeout` sleeps of the source.
-/

namespace SwapBot

/-- Mint address of SOL (`MINTS.SOL` in the source). -/
def MINTS_SOL : String := "So11111111111111111111111111111111111111112"

/-- One entry of the `PROTOCOL_MINTS` table: a mint address and a display name. -/
structure MintEntry where
  mint : String
  name : String
deriving DecidableEq, Repr

/-- The `PROTOCOL_MINTS` table of `src/multi_protocol_bot.ts`. -/
def PROTOCOL_MINTS : List MintEntry :=
  [⟨"J1toso1uCk3RLmjorhTtrVwY9HJ7X8V9yYac6Y7kGCPn", "JitoSOL"⟩,
   ⟨"mSoLzYCxHdYgdzU16g5QSh3i5K3z3KZK7ytfqcJm7So", "mSOL"⟩,
   ⟨"bSo13r4TkiE4KumL71LsHTPpL2euBYLFx6h9HP3piy1", "bSOL"⟩]

/-- Scripted outcome of one provider attempt inside `executeSwap`:
either `provider.getSwap` + signing + `sendRawTransaction` all succeed
and yield a transaction id (`ok`), or `getSwap` throws (`getSwapFail`),
or `sendRawTransaction` throws (`sendFail`).  Both failure forms are
caught by the same `catch` block of the source and treated alike. -/
inductive SwapOutcome where
  | ok (txid : String)
  | getSwapFail (msg : String)
  | sendFail (msg : String)
deriving DecidableEq, Repr

/-- Whether the scripted outcome is an error (the `catch` branch runs). -/
def SwapOutcome.isFail : SwapOutcome → Bool
  | .ok _ => false
  | .getSwapFail _ => true
  | .sendFail _ => true

/-- The logged error message of a failing outcome (dummy for `ok`). -/
def SwapOutcome.msg : SwapOutcome → String
  | .ok _ => ""
  | .getSwapFail m => m
  | .sendFail m => m

/-- A provider of the chain, as `executeSwap` sees it: its `name`, its
`available` flag, and the scripted outcome of invoking it for the
current request. -/
structure Provider where
  name : String
  available : Bool
  outcome : SwapOutcome
deriving DecidableEq, Repr

/-- The fixed priority order declared in the `MultiProtocolBot`
constructor (lines 237–242 of `src/multi_protocol_bot.ts`). -/
def providerOrder : List String := ["DFlow", "Raydium", "Jupiter", "OKX DEX"]

/-- Everything observable about one `executeSwap` call of
`src/multi_protocol_bot.ts`: the provider that succeeded (if any), the
transaction id it returned, the per-provider failure log lines
`(provider.name, message)` in order, the trace of providers actually
invoked (in order), and the number of `this.dailyTxCount++` increments
performed (0 or 1). -/
structure ExecResult where
  success : Option String
  txid : Option String
  failures : List (String × String)
  invoked : List String
  counterDelta : Nat
deriving DecidableEq, Repr

/-- Shallow embedding of `MultiProtocolBot.executeSwap`
(`src/multi_protocol_bot.ts` lines 283–311): iterate the chain in
order, `continue` on `available = false`, invoke the provider, return
`true` on success (after one counter increment), log the failure and
move on otherwise; return `false` when the chain is exhausted. -/
def executeSwap : List Provider → ExecResult
  | [] => ⟨none, none, [], [], 0⟩
  | p :: rest =>
    if p.available then
      match p.outcome with
      | .ok tx => ⟨some p.name, some tx, [], [p.name], 1⟩
      | .getSwapFail m =>
        let r := executeSwap rest
        ⟨r.success, r.txid, (p.name, m) :: r.failures, p.name :: r.invoked, r.counterDelta⟩
      | .sendFail m =>
        let r := executeSwap rest
        ⟨r.success, r.txid, (p.name, m) :: r.failures, p.name :: r.invoked, r.counterDelta⟩
    else executeSwap rest

/-- The mutable session state of `MultiProtocolBot`: the fields
`dailyTxCount` and `lastResetDate` (`src/multi_protocol_bot.ts` lines
232–233; initially `0` and `""`). -/
structure BotState where
  dailyTxCount : Nat
  lastResetDate : String
deriving DecidableEq, Repr

/-- `executeSwap` as it acts on the bot's state: it returns the boolean
outcome *and* performs the `this.dailyTxCount++` of line 300 itself. -/
def executeSwapS (st : BotState) (ps : List Provider) : Bool × BotState :=
  let r := executeSwap ps
  (r.success.isSome, ⟨st.dailyTxCount + r.counterDelta, st.lastResetDate⟩)

/-- Shallow embedding of `MultiProtocolBot.resetDailyCounter`
(lines 274–281): if today's ISO date differs from `lastResetDate`,
zero the counter and remember the new date; otherwise do nothing. -/
def resetDailyCounter (st : BotState) (today : String) : BotState :=
  if today ≠ st.lastResetDate then ⟨0, today⟩ else st

/-- Hour of day of a local timestamp in seconds. -/
def hourOf (t : Nat) : Nat := (t / 3600) % 24

/-- Calendar date (as a day-number string) of a local timestamp in
seconds; stands for `DateTime.now().setZone(TIME_ZONE).toISODate()`. -/
def dateStr (t : Nat) : String := toString (t / 86400)

/-- Shallow embedding of `MultiProtocolBot.isWorkTime` (lines 269–272):
`now.hour >= 8 && now.hour < 24` in the configured timezone. -/
def isWorkTime (h : Nat) : Bool := decide (8 ≤ h) && decide (h < 24)

/-- One swap attempt observed during the schedule loop: when it was
issued, for which wallet, the `from`/`to` mints and the `amount`
argument passed to `executeSwap`, and whether it reported success. -/
structure SwapCall where
  time : Nat
  label : String
  fromMint : String
  toMint : String
  amount : ℚ
  ok : Bool
deriving DecidableEq, Repr

/-- The per-wallet script of one round iteration of `start` (lines
334–351): the wallet label, the randomly chosen `target` entry of
`PROTOCOL_MINTS`, the random `amount` (in SOL, drawn from
[0.0001, 0.001]), the scripted provider outcomes of the forward and
hedge `executeSwap` calls, the random dwell before the hedge
(`Math.floor(Math.random() * 240) + 120` seconds), and the random
inter-wallet delay (`Math.random() * 40 + 20` seconds). -/
structure WalletPlan where
  label : String
  target : MintEntry
  amount : ℚ
  forwardProviders : List Provider
  dwellSec : Nat
  hedgeProviders : List Provider
  interDelaySec : Nat
deriving DecidableEq, Repr

/-- Result of running a fragment of the loop: the advanced clock, the
new session state, and the swap attempts issued (in order). -/
structure StepOut where
  time : Nat
  state : BotState
  calls : List SwapCall
deriving DecidableEq, Repr

/-- Body of the `for (const wallet of shuffled)` loop (lines 334–351):
forward swap SOL → target for `amount`; if it returned `true`, sleep
the dwell and issue the hedge swap target → SOL for `amount * 0.995`
(its result is discarded); then sleep the inter-wallet delay. -/
def processWallet (t : Nat) (st : BotState) (w : WalletPlan) : StepOut :=
  let fwd := executeSwapS st w.forwardProviders
  let fwdCall : SwapCall := ⟨t, w.label, MINTS_SOL, w.target.mint, w.amount, fwd.1⟩
  if fwd.1 then
    let t1 := t + w.dwellSec
    let hed := executeSwapS fwd.2 w.hedgeProviders
    let hedCall : SwapCall :=
      ⟨t1, w.label, w.target.mint, MINTS_SOL, w.amount * (995 / 1000 : ℚ), hed.1⟩
    ⟨t1 + w.interDelaySec, hed.2, [fwdCall, hedCall]⟩
  else
    ⟨t + w.interDelaySec, fwd.2, [fwdCall]⟩

/-- The whole wallet loop of one round, over the shuffled wallet list. -/
def runRound (t : Nat) (st : BotState) : List WalletPlan → StepOut
  | [] => ⟨t, st, []⟩
  | w :: ws =>
    let o := processWallet t st w
    let r := runRound o.time o.state ws
    ⟨r.time, r.state, o.calls ++ r.calls⟩

/-- The random choices of one `while (true)` iteration of `start`: the
shuffled wallet list together with each wallet's sampled script, and
the inter-round sleep (`Math.floor(Math.random() * 120) + 480` s). -/
structure IterScript where
  plans : List WalletPlan
  loopWaitSec : Nat
deriving DecidableEq, Repr

/-- One iteration of the `while (true)` loop of `start` (lines
317–357): call `resetDailyCounter`; if out of the trading window sleep
600 s and continue; if `dailyTxCount >= 120` sleep 600 s and continue;
otherwise run the round over the shuffled wallets and sleep the
inter-round delay. -/
def loopStep (t : Nat) (st : BotState) (it : IterScript) : StepOut :=
  let st1 := resetDailyCounter st (dateStr t)
  if isWorkTime (hourOf t) = false then ⟨t + 600, st1, []⟩
  else if 120 ≤ st1.dailyTxCount then ⟨t + 600, st1, []⟩
  else
    let r := runRound t st1 it.plans
    ⟨r.time + it.loopWaitSec, r.state, r.calls⟩

/-- Shallow embedding of line 332,
`[...this.wallets].sort(() => Math.random() - 0.5)`: a comparison sort
of the wallet list under an arbitrary (random, possibly inconsistent)
boolean comparator.  ECMAScript guarantees that `Array.prototype.sort`
returns a permutation of its input for *every* comparator, which is
what the model's `mergeSort` provides. -/
def shuffleWallets {α : Type} (cmp : α → α → Bool) (l : List α) : List α :=
  List.mergeSort l cmp

/-- Boolean test that `pat` occurs at the head of `s`. -/
def strStarts : List Char → List Char → Bool
  | [], _ => true
  | _ :: _, [] => false
  | a :: as, b :: bs => a == b && strStarts as bs

/-- Boolean substring occurrence test (`String.prototype.includes`). -/
def strHasSub (pat : List Char) : List Char → Bool
  | [] => strStarts pat []
  | c :: cs => strStarts pat (c :: cs) || strHasSub pat cs

/-- `s.includes(pat)` on strings. -/
def containsSub (s pat : String) : Bool := strHasSub pat.toList s.toList

/-- The transient-error classifier of `fetchWithRetry`
(`src/unnamed/part_000` lines 110–112): lowercase the message
(`(error.message || '').toLowerCase()`) and look for any of the
network-related keywords. -/
def isTransientMsg (msg : String) : Bool :=
  let m := msg.toList.map Char.toLower
  strHasSub "socket".toList m || strHasSub "timeout".toList m ||
  strHasSub "proxy".toList m || strHasSub "network".toList m ||
  strHasSub "econnreset".toList m || strHasSub "econnrefused".toList m

/-- Worker of `fetchWithRetry`: attempts `op i` for
`i = start, start+1, ...` while `i < maxRetries`; a transient error is
retried after a `2000 * (i + 1)` ms backoff sleep, any other error (or
running out of attempts) ends the call.  Returns the final result, the
number of attempts actually made, and the list of backoff delays (in
ms) slept, in order.  `last` carries `lastError`. -/
def fetchWithRetryAux {α : Type} (op : Nat → Except String α) (maxRetries : Nat)
    (i : Nat) (last : String) : Except String α × Nat × List Nat :=
  if hlt : i < maxRetries then
    match op i with
    | .ok v => (.ok v, i + 1, [])
    | .error e =>
      if isTransientMsg e then
        let r := fetchWithRetryAux op maxRetries (i + 1) e
        (r.1, r.2.1, 2000 * (i + 1) :: r.2.2)
      else (.error e, i + 1, [])
  else (.error last, i, [])
termination_by maxRetries - i
decreasing_by omega

/-- Shallow embedding of `MultiProtocolBot.fetchWithRetry`
(`src/unnamed/part_000` lines 103–121).  `op i` is the outcome of the
`i`-th invocation of `operation()`. -/
def fetchWithRetry {α : Type} (op : Nat → Except String α) (maxRetries : Nat) :
    Except String α × Nat × List Nat :=
  fetchWithRetryAux op maxRetries 0 ""

/-! Basic unfolding lemmas for `executeSwap`. -/

theorem executeSwap_nil : executeSwap [] = ⟨none, none, [], [], 0⟩ := rfl

theorem executeSwap_cons_unavail (p : Provider) (rest : List Provider)
    (ha : p.available = false) : executeSwap (p :: rest) = executeSwap rest := by
  simp [executeSwap, ha]

theorem executeSwap_cons_ok (p : Provider) (rest : List Provider) (tx : String)
    (ha : p.available = true) (ho : p.outcome = SwapOutcome.ok tx) :
    executeSwap (p :: rest) = ⟨some p.name, some tx, [], [p.name], 1⟩ := by
  simp [executeSwap, ha, ho]

theorem executeSwap_cons_fail (p : Provider) (rest : List Provider)
    (ha : p.available = true) (hf : p.outcome.isFail = true) :
    executeSwap (p :: rest) =
      ⟨(executeSwap rest).success, (executeSwap rest).txid,
       (p.name, p.outcome.msg) :: (executeSwap rest).failures,
       p.name :: (executeSwap rest).invoked, (executeSwap rest).counterDelta⟩ := by
  cases ho : p.outcome with
  | ok tx => rw [ho] at hf; simp [SwapOutcome.isFail] at hf
  | getSwapFail m => simp [executeSwap, ha, ho, SwapOutcome.msg]
  | sendFail m => simp [executeSwap, ha, ho, SwapOutcome.msg]

/-- Unavailable providers are skipped without any observable effect:
`executeSwap` only depends on the `available` sub-chain. -/
theorem executeSwap_eq_filter (ps : List Provider) :
    executeSwap ps = executeSwap (ps.filter fun p => p.available) := by
  induction ps with
  | nil => rfl
  | cons p rest ih =>
    cases ha : p.available with
    | false => rw [executeSwap_cons_unavail p rest ha, ih]; simp [List.filter_cons, ha]
    | true =>
      simp only [List.filter_cons, ha, if_pos]
      cases ho : p.outcome with
      | ok tx => rw [executeSwap_cons_ok p rest tx ha ho, executeSwap_cons_ok p _ tx ha ho]
      | getSwapFail m =>
        have hf : p.outcome.isFail = true := by simp [ho, SwapOutcome.isFail]
        rw [executeSwap_cons_fail p rest ha hf, executeSwap_cons_fail p _ ha hf, ih]
      | sendFail m =>
        have hf : p.outcome.isFail = true := by simp [ho, SwapOutcome.isFail]
        rw [executeSwap_cons_fail p rest ha hf, executeSwap_cons_fail p _ ha hf, ih]

/-- Chain behaviour on a list of available providers: a failing prefix
`fs` followed by a succeeding provider `c`; everything after `c` is
never touched. -/
theorem executeSwap_chain_aux (fs : List Provider) (c : Provider) (rest : List Provider)
    (tx : String)
    (hfa : ∀ p ∈ fs, p.available = true) (hff : ∀ p ∈ fs, p.outcome.isFail = true)
    (hca : c.available = true) (hco : c.outcome = SwapOutcome.ok tx) :
    executeSwap (fs ++ c :: rest) =
      ⟨some c.name, some tx, fs.map (fun p => (p.name, p.outcome.msg)),
       (fs.map fun p => p.name) ++ [c.name], 1⟩ := by
  induction fs with
  | nil => simpa using executeSwap_cons_ok c rest tx hca hco
  | cons f fs ih =>
    have hfa1 : f.available = true := hfa f (by simp)
    have hff1 : f.outcome.isFail = true := hff f (by simp)
    rw [List.cons_append, executeSwap_cons_fail f _ hfa1 hff1,
        ih (fun p hp => hfa p (by simp [hp])) (fun p hp => hff p (by simp [hp]))]
    simp

/-- Chain behaviour when every (available) provider fails: the request
fails with the full per-provider failure log and no counter change. -/
theorem executeSwap_allFail_aux (fs : List Provider)
    (hfa : ∀ p ∈ fs, p.available = true) (hff : ∀ p ∈ fs, p.outcome.isFail = true) :
    executeSwap fs =
      ⟨none, none, fs.map (fun p => (p.name, p.outcome.msg)),
       fs.map (fun p => p.name), 0⟩ := by
  induction fs with
  | nil => rfl
  | cons f fs ih =>
    have hfa1 : f.available = true := hfa f (by simp)
    have hff1 : f.outcome.isFail = true := hff f (by simp)
    rw [executeSwap_cons_fail f _ hfa1 hff1,
        ih (fun p hp => hfa p (by simp [hp])) (fun p hp => hff p (by simp [hp]))]
    simp

/-- The counter increment happens exactly on success. -/
theorem executeSwap_delta (ps : List Provider) :
    (executeSwap ps).counterDelta = if (executeSwap ps).success.isSome then 1 else 0 := by
  induction ps with
  | nil => rfl
  | cons p rest ih =>
    cases ha : p.available with
    | false => rw [executeSwap_cons_unavail p rest ha]; exact ih
    | true =>
      cases ho : p.outcome with
      | ok tx => rw [executeSwap_cons_ok p rest tx ha ho]; rfl
      | getSwapFail m =>
        rw [executeSwap_cons_fail p rest ha (by simp [ho, SwapOutcome.isFail])]
        simpa using ih
      | sendFail m =>
        rw [executeSwap_cons_fail p rest ha (by simp [ho, SwapOutcome.isFail])]
        simpa using ih

/-- Success of `executeSwap` can only come from an available provider of
the chain whose scripted submission succeeded. -/
theorem executeSwap_success_ok (ps : List Provider) (nm : String)
    (h : (executeSwap ps).success = some nm) :
    ∃ p ∈ ps, p.available = true ∧ p.name = nm ∧ ∃ tx, p.outcome = SwapOutcome.ok tx := by
  induction ps with
  | nil => simp [executeSwap_nil] at h
  | cons p rest ih =>
    cases ha : p.available with
    | false =>
      rw [executeSwap_cons_unavail p rest ha] at h
      obtain ⟨q, hq, hrest⟩ := ih h
      exact ⟨q, by simp [hq], hrest⟩
    | true =>
      cases ho : p.outcome with
      | ok tx =>
        rw [executeSwap_cons_ok p rest tx ha ho] at h
        simp only [Option.some.injEq] at h
        exact ⟨p, by simp, ha, h, tx, ho⟩
      | getSwapFail m =>
        rw [executeSwap_cons_fail p rest ha (by simp [ho, SwapOutcome.isFail])] at h
        obtain ⟨q, hq, hrest⟩ := ih h
        exact ⟨q, by simp [hq], hrest⟩
      | sendFail m =>
        rw [executeSwap_cons_fail p rest ha (by simp [ho, SwapOutcome.isFail])] at h
        obtain ⟨q, hq, hrest⟩ := ih h
        exact ⟨q, by simp [hq], hrest⟩

/-- The invocation trace is a sub-list of the chain: no provider object
is ever invoked twice, and order follows the chain. -/
theorem executeSwap_invoked_sublist (ps : List Provider) :
    List.Sublist (executeSwap ps).invoked (ps.map fun p => p.name) := by
  induction ps with
  | nil => simp [executeSwap_nil]
  | cons p rest ih =>
    cases ha : p.available with
    | false =>
      rw [executeSwap_cons_unavail p rest ha]
      exact ih.cons p.name
    | true =>
      cases ho : p.outcome with
      | ok tx =>
        rw [executeSwap_cons_ok p rest tx ha ho]
        exact (List.nil_sublist _).cons₂ p.name
      | getSwapFail m =>
        rw [executeSwap_cons_fail p rest ha (by simp [ho, SwapOutcome.isFail])]
        exact ih.cons₂ p.name
      | sendFail m =>
        rw [executeSwap_cons_fail p rest ha (by simp [ho, SwapOutcome.isFail])]
        exact ih.cons₂ p.name

/-! Claim C1. -/

/-- Claim C1: for every swap request the provider chain is attempted
strictly in the declared priority order, skipping any provider with
`available = false`, stopping at the first provider whose call
succeeds: if the available sub-chain is a failing prefix `fs` followed
by a succeeding provider `c`, then `executeSwap` reports success via
`c`, records exactly the failures of `fs` in order, and its invocation
trace is exactly `fs`'s names followed by `c` — so nothing after `c` is
invoked and no provider is invoked twice within the request. -/
theorem C1_provider_chain_priority (ps fs rest : List Provider) (c : Provider) (tx : String)
    (hsplit : ps.filter (fun p => p.available) = fs ++ c :: rest)
    (hf : ∀ p ∈ fs, p.outcome.isFail = true)
    (hc : c.outcome = SwapOutcome.ok tx) :
    (executeSwap ps).success = some c.name ∧
    (executeSwap ps).failures = fs.map (fun p => (p.name, p.outcome.msg)) ∧
    (executeSwap ps).invoked = (fs.map fun p => p.name) ++ [c.name] := by
  have hmem : ∀ p ∈ fs ++ c :: rest, p.available = true := by
    intro p hp
    have hpf : p ∈ ps.filter (fun p => p.available) := hsplit ▸ hp
    simpa using (List.mem_filter.mp hpf).2
  have hfa : ∀ p ∈ fs, p.available = true := fun p hp => hmem p (List.mem_append_left _ hp)
  have hca : c.available = true := hmem c (by simp)
  rw [executeSwap_eq_filter, hsplit, executeSwap_chain_aux fs c rest tx hfa hf hca hc]
  exact ⟨rfl, rfl, rfl⟩

/-- Failing provider A of the C1 scenario. -/
def provA1 : Provider := ⟨"DFlow", true, SwapOutcome.getSwapFail "dflow returned no transaction"⟩

/-- Failing provider B of the C1 scenario. -/
def provB1 : Provider := ⟨"Raydium", true, SwapOutcome.getSwapFail "raydium quote failed"⟩

/-- Succeeding provider C of the C1 scenario. -/
def provC1 : Provider := ⟨"Jupiter", true, SwapOutcome.ok "sig3"⟩

/-- Witness for C1 at the spec's scenario `[A(fail), B(fail), C(succeed)]`. -/
theorem C1_provider_chain_priority_witness :
    (executeSwap [provA1, provB1, provC1]).success = some "Jupiter" ∧
    (executeSwap [provA1, provB1, provC1]).failures =
      [("DFlow", "dflow returned no transaction"), ("Raydium", "raydium quote failed")] ∧
    (executeSwap [provA1, provB1, provC1]).invoked = ["DFlow", "Raydium", "Jupiter"] := by
  have h := C1_provider_chain_priority [provA1, provB1, provC1] [provA1, provB1] [] provC1
    "sig3" (by decide) (by decide) (by decide)
  simpa [provA1, provB1, provC1, SwapOutcome.msg] using h

/-! Claim C4. -/

/-- Claim C4: if every configured provider is unavailable or every
eligible provider's call fails, `executeSwap` returns the failure value
(no success, no transaction id, zero counter increments — the
`return false` / `AllProvidersExhausted` path) carrying the
per-provider failure reasons of every eligible provider in order; the
embedding is a total function, mirroring that every provider error is
caught inside the loop and none escapes to the caller. -/
theorem C4_all_providers_exhausted (ps : List Provider)
    (h : ∀ p ∈ ps, p.available = true → p.outcome.isFail = true) :
    (executeSwap ps).success = none ∧
    (executeSwap ps).txid = none ∧
    (executeSwap ps).failures =
      ((ps.filter fun p => p.available).map fun p => (p.name, p.outcome.msg)) ∧
    (executeSwap ps).counterDelta = 0 := by
  have hfa : ∀ p ∈ ps.filter (fun p => p.available), p.available = true := by
    intro p hp; simpa using (List.mem_filter.mp hp).2
  have hff : ∀ p ∈ ps.filter (fun p => p.available), p.outcome.isFail = true := by
    intro p hp
    exact h p (List.mem_filter.mp hp).1 (by simpa using (List.mem_filter.mp hp).2)
  rw [executeSwap_eq_filter, executeSwap_allFail_aux _ hfa hff]
  exact ⟨rfl, rfl, rfl, rfl⟩

/-- Eligible failing provider of the C4 witness. -/
def provA4 : Provider := ⟨"DFlow", true, SwapOutcome.sendFail "blockhash not found"⟩

/-- Eligible failing provider of the C4 witness. -/
def provB4 : Provider := ⟨"Raydium", true, SwapOutcome.getSwapFail "raydium build failed"⟩

/-- Unavailable provider of the C4 witness. -/
def provD4 : Provider := ⟨"OKX DEX", false, SwapOutcome.getSwapFail "missing api key"⟩

/-- Witness for C4: one unavailable provider and two eligible failing
ones exhaust the chain. -/
theorem C4_all_providers_exhausted_witness :
    (executeSwap [provA4, provB4, provD4]).success = none ∧
    (executeSwap [provA4, provB4, provD4]).txid = none ∧
    (executeSwap [provA4, provB4, provD4]).failures =
      [("DFlow", "blockhash not found"), ("Raydium", "raydium build failed")] ∧
    (executeSwap [provA4, provB4, provD4]).counterDelta = 0 := by
  have h := C4_all_providers_exhausted [provA4, provB4, provD4] (by decide)
  simpa [provA4, provB4, provD4, SwapOutcome.msg] using h

/-! Claim C5. -/

/-- Counterexample to claim C5: the claim says the swap-execution
operation "never mutates the trading-session state (in particular the
daily counter) directly".  In the source, `executeSwap` itself performs
`this.dailyTxCount++` (line 300): running it on the state
`⟨0, "2026-01-01"⟩` with a succeeding provider leaves a *different*
state, with the counter already incremented to 1 — the caller never
writes the counter from the outcome. -/
theorem C5_counterexample :
    (executeSwapS ⟨0, "2026-01-01"⟩ [⟨"DFlow", true, SwapOutcome.ok "sig"⟩]).2 ≠
      (⟨0, "2026-01-01"⟩ : BotState) ∧
    (executeSwapS ⟨0, "2026-01-01"⟩ [⟨"DFlow", true, SwapOutcome.ok "sig"⟩]).2.dailyTxCount
      = 1 := by
  constructor
  · decide
  · decide

/-- Claim C5 as amended: `executeSwap` itself is the writer of the
daily counter — it increments `dailyTxCount` by exactly one when (and
only when) it reports success, leaves the counter unchanged on failure,
touches no other session state (`lastResetDate` is preserved), and also
returns the boolean outcome, which the schedule loop uses only to
decide whether to issue the hedge leg. -/
theorem C5_amended (st : BotState) (ps : List Provider) :
    (executeSwapS st ps).2.lastResetDate = st.lastResetDate ∧
    (executeSwapS st ps).2.dailyTxCount =
      st.dailyTxCount + (if (executeSwapS st ps).1 then 1 else 0) := by
  refine ⟨rfl, ?_⟩
  show st.dailyTxCount + (executeSwap ps).counterDelta = _
  rw [executeSwap_delta]
  rfl

/-! Counter-arithmetic helpers for the schedule loop. -/

theorem counterDelta_le_one (ps : List Provider) : (executeSwap ps).counterDelta ≤ 1 := by
  rw [executeSwap_delta]; split <;> omega

theorem processWallet_count_bounds (t : Nat) (st : BotState) (w : WalletPlan) :
    st.dailyTxCount ≤ (processWallet t st w).state.dailyTxCount ∧
    (processWallet t st w).state.dailyTxCount ≤ st.dailyTxCount + 2 := by
  have h1 := counterDelta_le_one w.forwardProviders
  have h2 := counterDelta_le_one w.hedgeProviders
  simp only [processWallet, executeSwapS]
  split <;> simp <;> omega

theorem processWallet_date (t : Nat) (st : BotState) (w : WalletPlan) :
    (processWallet t st w).state.lastResetDate = st.lastResetDate := by
  simp only [processWallet, executeSwapS]
  split <;> simp

theorem runRound_count_bounds (plans : List WalletPlan) : ∀ (t : Nat) (st : BotState),
    st.dailyTxCount ≤ (runRound t st plans).state.dailyTxCount ∧
    (runRound t st plans).state.dailyTxCount ≤ st.dailyTxCount + 2 * plans.length := by
  induction plans with
  | nil => intro t st; simp [runRound]
  | cons w ws ih =>
    intro t st
    have h1 := processWallet_count_bounds t st w
    have h2 := ih (processWallet t st w).time (processWallet t st w).state
    simp only [runRound, List.length_cons]
    omega

/-! Claim C3. -/

/-- Claim C3: the daily transaction counter only increases, and only on
a confirmed successful submission (never on provider failure or failed
submission); `resetDailyCounter` zeroes it exactly when the observed
calendar date differs from `lastResetDate` and does nothing otherwise
(never a mid-day reset); and across a whole loop iteration on an
unchanged date the counter never decreases. -/
theorem C3_daily_counter_invariants :
    (∀ (st : BotState) (d : String), d ≠ st.lastResetDate →
       resetDailyCounter st d = ⟨0, d⟩) ∧
    (∀ (st : BotState) (d : String), d = st.lastResetDate →
       resetDailyCounter st d = st) ∧
    (∀ (st : BotState) (ps : List Provider),
       st.dailyTxCount ≤ (executeSwapS st ps).2.dailyTxCount) ∧
    (∀ (st : BotState) (ps : List Provider), (executeSwapS st ps).1 = false →
       (executeSwapS st ps).2.dailyTxCount = st.dailyTxCount) ∧
    (∀ (st : BotState) (ps : List Provider), (executeSwapS st ps).1 = true →
       (executeSwapS st ps).2.dailyTxCount = st.dailyTxCount + 1 ∧
       ∃ p ∈ ps, p.available = true ∧ ∃ tx, p.outcome = SwapOutcome.ok tx) ∧
    (∀ (t : Nat) (st : BotState) (it : IterScript), dateStr t = st.lastResetDate →
       st.dailyTxCount ≤ (loopStep t st it).state.dailyTxCount) := by
  refine ⟨?_, ?_, ?_, ?_, ?_, ?_⟩
  · intro st d hd; simp [resetDailyCounter, hd]
  · intro st d hd; simp [resetDailyCounter, hd]
  · intro st ps
    show st.dailyTxCount ≤ st.dailyTxCount + (executeSwap ps).counterDelta
    omega
  · intro st ps h
    have hd := executeSwap_delta ps
    have hs : (executeSwap ps).success.isSome = false := h
    rw [hs] at hd
    show st.dailyTxCount + (executeSwap ps).counterDelta = st.dailyTxCount
    simp at hd
    omega
  · intro st ps h
    have hd := executeSwap_delta ps
    have hs : (executeSwap ps).success.isSome = true := h
    rw [hs] at hd
    constructor
    · show st.dailyTxCount + (executeSwap ps).counterDelta = st.dailyTxCount + 1
      simp at hd
      omega
    · obtain ⟨nm, hnm⟩ := Option.isSome_iff_exists.mp hs
      obtain ⟨p, hp, hpa, _, htx⟩ := executeSwap_success_ok ps nm hnm
      exact ⟨p, hp, hpa, htx⟩
  · intro t st it hd
    have hst : resetDailyCounter st (dateStr t) = st := by simp [resetDailyCounter, hd]
    simp only [loopStep, hst]
    split
    · simp
    · split
      · simp
      · simpa using (runRound_count_bounds it.plans t st).1

/-- Witness for C3: concrete date rollover, mid-day no-op, a failing
chain leaving the counter at 7, and a succeeding chain raising it to 8. -/
theorem C3_daily_counter_invariants_witness :
    resetDailyCounter ⟨7, "20735"⟩ "20736" = ⟨0, "20736"⟩ ∧
    resetDailyCounter ⟨7, "20736"⟩ "20736" = ⟨7, "20736"⟩ ∧
    (executeSwapS ⟨7, "20736"⟩
       [⟨"DFlow", true, SwapOutcome.getSwapFail "bad request"⟩]).2.dailyTxCount = 7 ∧
    (executeSwapS ⟨7, "20736"⟩
       [⟨"DFlow", true, SwapOutcome.ok "sig"⟩]).2.dailyTxCount = 8 := by
  refine ⟨?_, ?_, ?_, ?_⟩
  · exact C3_daily_counter_invariants.1 ⟨7, "20735"⟩ "20736" (by decide)
  · exact C3_daily_counter_invariants.2.1 ⟨7, "20736"⟩ "20736" rfl
  · exact C3_daily_counter_invariants.2.2.2.1 ⟨7, "20736"⟩
      [⟨"DFlow", true, SwapOutcome.getSwapFail "bad request"⟩] (by decide)
  · exact (C3_daily_counter_invariants.2.2.2.2.1 ⟨7, "20736"⟩
      [⟨"DFlow", true, SwapOutcome.ok "sig"⟩] (by decide)).1

/-! Claim C2. -/

/-- When every attempt up to the ceiling fails transiently,
`fetchWithRetryAux` makes all remaining attempts, sleeping the linear
backoff `2000 * (attempt + 1)` ms after each, and ends in an error. -/
theorem fetchWithRetryAux_transient (op : Nat → Except String Nat) (n : Nat) :
    ∀ (d i : Nat) (last : String), n - i = d → i ≤ n →
    (∀ j, i ≤ j → j < n → ∃ e, op j = Except.error e ∧ isTransientMsg e = true) →
    ∃ e, fetchWithRetryAux op n i last =
      (Except.error e, n, (List.range d).map fun k => 2000 * (i + k + 1)) := by
  intro d
  induction d with
  | zero =>
    intro i last hd hle _
    have hin : i = n := by omega
    refine ⟨last, ?_⟩
    unfold fetchWithRetryAux
    rw [dif_neg (by omega)]
    simp [hin]
  | succ d ih =>
    intro i last hd hle hop
    have hlt : i < n := by omega
    obtain ⟨e, hope, htr⟩ := hop i le_rfl hlt
    obtain ⟨e2, hrec⟩ := ih (i + 1) e (by omega) (by omega)
      (fun j hj1 hj2 => hop j (by omega) hj2)
    refine ⟨e2, ?_⟩
    have hmap : (List.range (d + 1)).map (fun k => 2000 * (i + k + 1)) =
        2000 * (i + 1) :: (List.range d).map fun k => 2000 * (i + 1 + k + 1) := by
      rw [List.range_succ_eq_map, List.map_cons, List.map_map]
      have hfun : ((fun k => 2000 * (i + k + 1)) ∘ Nat.succ) =
          fun k => 2000 * (i + 1 + k + 1) := by
        funext k
        simp [Function.comp]
        ring
      rw [hfun]
    unfold fetchWithRetryAux
    rw [dif_pos hlt, hope]
    simp [htr, hrec, hmap]

/-- Transiently failing provider of the C2 counterexample. -/
def prov2t : Provider := ⟨"DFlow", true, SwapOutcome.getSwapFail "timeout of 15000ms exceeded"⟩

/-- Succeeding next provider of the C2 counterexample. -/
def prov2ok : Provider := ⟨"Raydium", true, SwapOutcome.ok "sigR"⟩

/-- Counterexample to claim C2: in the multi-provider executor
(`src/multi_protocol_bot.ts` `executeSwap`, lines 283–311) a transient
error — here a timeout message that the repository's own transient
classifier accepts — is *not* retried against the same provider: the
chain falls through to the next provider immediately, invoking the
failing provider exactly once with no backoff. -/
theorem C2_counterexample :
    isTransientMsg "timeout of 15000ms exceeded" = true ∧
    (executeSwap [prov2t, prov2ok]).invoked = ["DFlow", "Raydium"] ∧
    (executeSwap [prov2t, prov2ok]).invoked.count "DFlow" = 1 ∧
    (executeSwap [prov2t, prov2ok]).success = some "Raydium" := by
  refine ⟨by decide, by decide, by decide, by decide⟩

/-- Claim C2 as amended: in the multi-provider executor every provider
error, transient or terminal, causes immediate fallthrough to the next
provider — each provider of the chain is invoked at most once per
request.  The described retry policy lives only in the single-provider
variant (`src/unnamed/part_000`): its `fetchWithRetry` retries an
operation whose error is classified transient up to the fixed ceiling
of `maxRetries` total attempts with strictly increasing linear backoff
`2000 * (attempt + 1)` ms before giving up, while a terminal
(non-transient) error ends the call after the one attempt with zero
retries and zero backoff sleeps. -/
theorem C2_retry_policy_amended :
    (∀ ps : List Provider, List.Sublist (executeSwap ps).invoked (ps.map fun p => p.name)) ∧
    (∀ ps : List Provider, (ps.map fun p => p.name).Nodup →
       ∀ nm : String, (executeSwap ps).invoked.count nm ≤ 1) ∧
    (∀ (op : Nat → Except String Nat) (n : Nat),
       (∀ j, j < n → ∃ e, op j = Except.error e ∧ isTransientMsg e = true) →
       (∃ e, (fetchWithRetry op n).1 = Except.error e) ∧
       (fetchWithRetry op n).2.1 = n ∧
       (fetchWithRetry op n).2.2 = ((List.range n).map fun k => 2000 * (k + 1)) ∧
       List.Chain' (· < ·) (fetchWithRetry op n).2.2) ∧
    (∀ (op : Nat → Except String Nat) (n : Nat) (e : String), 0 < n →
       op 0 = Except.error e → isTransientMsg e = false →
       fetchWithRetry op n = (Except.error e, 1, [])) := by
  refine ⟨executeSwap_invoked_sublist, ?_, ?_, ?_⟩
  · intro ps hnd nm
    have hs := executeSwap_invoked_sublist ps
    have hnodup : (executeSwap ps).invoked.Nodup := hnd.sublist hs
    exact List.nodup_iff_count_le_one.mp hnodup nm
  · intro op n hop
    obtain ⟨e, heq⟩ := fetchWithRetryAux_transient op n n 0 "" (by omega) (by omega)
      (fun j hj1 hj2 => hop j hj2)
    have hmap : ((List.range n).map fun k => 2000 * (0 + k + 1)) =
        (List.range n).map fun k => 2000 * (k + 1) := by
      apply List.map_congr_left
      intro k _
      ring
    rw [fetchWithRetry, heq, hmap]
    refine ⟨⟨e, rfl⟩, rfl, rfl, ?_⟩
    have hpw : List.Pairwise (· < ·) ((List.range n).map fun k => 2000 * (k + 1)) := by
      refine List.Pairwise.map _ ?_ (List.pairwise_lt_range n)
      intro a b hab
      omega
    exact hpw.chain'
  · intro op n e hn h0 ht
    rw [fetchWithRetry]
    unfold fetchWithRetryAux
    rw [dif_pos hn, h0]
    simp [ht]

/-- Always-transient operation (a socket error on every attempt), used
by the C2 witness. -/
def opSocket : Nat → Except String Nat := fun _ => Except.error "socket hang up"

/-- Terminally failing operation (a malformed-response error), used by
the C2 witness. -/
def opMalformed : Nat → Except String Nat := fun _ => Except.error "unexpected field"

/-- Witness for C2 as amended: a duplicate-free chain is invoked at most
once per provider; three consecutive transient socket errors exhaust the
default ceiling of 3 attempts with strictly increasing backoffs
2000, 4000, 6000 ms; a terminal (malformed-response) error stops
`fetchWithRetry` after exactly one attempt with no backoff. -/
theorem C2_retry_policy_amended_witness :
    (executeSwap [prov2t, prov2ok]).invoked.count "Raydium" ≤ 1 ∧
    (fetchWithRetry opSocket 3).2.1 = 3 ∧
    (fetchWithRetry opSocket 3).2.2 = [2000, 4000, 6000] ∧
    List.Chain' (· < ·) (fetchWithRetry opSocket 3).2.2 ∧
    fetchWithRetry opMalformed 3 = (Except.error "unexpected field", 1, []) := by
  have hc := C2_retry_policy_amended.2.1 [prov2t, prov2ok] (by decide) "Raydium"
  have htr := C2_retry_policy_amended.2.2.1 opSocket 3
    (fun j _ => ⟨"socket hang up", rfl, by decide⟩)
  have hterm := C2_retry_policy_amended.2.2.2 opMalformed 3 "unexpected field"
    (by omega) rfl (by decide)
  refine ⟨hc, htr.2.1, ?_, htr.2.2.2, hterm⟩
  rw [htr.2.2.1]
  decide

/-! Claim C6. -/

/-- Wallet script of the C6 instances: forward and hedge both succeed,
dwell 120 s (the minimum the code can draw), inter-wallet delay 20 s. -/
def plan6 : WalletPlan :=
  ⟨"aaa111", ⟨"J1toso1uCk3RLmjorhTtrVwY9HJ7X8V9yYac6Y7kGCPn", "JitoSOL"⟩, 1 / 2000,
   [⟨"DFlow", true, SwapOutcome.ok "sig1"⟩], 120,
   [⟨"DFlow", true, SwapOutcome.ok "sig2"⟩], 20⟩

/-- Round script of the C6 instances. -/
def iter6 : IterScript := ⟨[plan6], 480⟩

/-- Counterexample to claim C6: a loop iteration starting at 23:59:00
(second 86340 of day 0, within the 08:00–24:00 window) performs the
forward swap in-window, but after the 120 s dwell the hedge swap is
attempted at 00:01:00 of the next day — an hour at which `isWorkTime`
is false — because the window gate is only evaluated at the start of
the round, never between the legs. -/
theorem C6_counterexample :
    isWorkTime (hourOf 86340) = true ∧
    ((loopStep 86340 ⟨0, "0"⟩ iter6).calls.map fun c => (c.time, isWorkTime (hourOf c.time)))
      = [(86340, true), (86460, false)] := by
  constructor
  · decide
  · rfl

/-- Claim C6 as amended: the trading-window gate is evaluated once per
loop iteration, before the round starts.  An iteration whose gate check
is out of window performs no swap attempt at all and just sleeps 600 s
(re-checking periodically); conversely any iteration that issues at
least one swap attempt passed the gate at its start.  Attempts later
within an in-window round are not re-gated and can land outside the
window. -/
theorem C6_trading_window_amended :
    (∀ (t : Nat) (st : BotState) (it : IterScript), isWorkTime (hourOf t) = false →
       (loopStep t st it).calls = [] ∧ (loopStep t st it).time = t + 600 ∧
       (loopStep t st it).state = resetDailyCounter st (dateStr t)) ∧
    (∀ (t : Nat) (st : BotState) (it : IterScript),
       (loopStep t st it).calls ≠ [] → isWorkTime (hourOf t) = true) := by
  constructor
  · intro t st it h
    refine ⟨?_, ?_, ?_⟩ <;> simp [loopStep, h]
  · intro t st it h
    cases hw : isWorkTime (hourOf t) with
    | true => rfl
    | false =>
      have hnil : (loopStep t st it).calls = [] := by simp [loopStep, hw]
      exact absurd hnil h

/-- Witness for C6 as amended, at the spec's own scenario: current time
03:00 local (second 10800), window 08:00–24:00 — the iteration makes no
swap attempt and sleeps 600 s. -/
theorem C6_trading_window_amended_witness :
    (loopStep 10800 ⟨0, "0"⟩ iter6).calls = [] ∧
    (loopStep 10800 ⟨0, "0"⟩ iter6).time = 11400 := by
  have h := C6_trading_window_amended.1 10800 ⟨0, "0"⟩ iter6 (by decide)
  exact ⟨h.1, h.2.1⟩

/-! Claim C7. -/

/-- Claim C7: whenever the forward leg of an identity iteration
succeeds, the subsequent hedge request is issued with the assets of the
forward request swapped (target mint back to SOL) and with amount
exactly `0.995 ×` the very forward amount used in the preceding
successful leg. -/
theorem C7_hedge_amount (t : Nat) (st : BotState) (w : WalletPlan)
    (h : (executeSwapS st w.forwardProviders).1 = true) :
    (processWallet t st w).calls =
      [⟨t, w.label, MINTS_SOL, w.target.mint, w.amount, true⟩,
       ⟨t + w.dwellSec, w.label, w.target.mint, MINTS_SOL, w.amount * (995 / 1000 : ℚ),
        (executeSwapS (executeSwapS st w.forwardProviders).2 w.hedgeProviders).1⟩] ∧
    (∀ c1 c2 : SwapCall, (processWallet t st w).calls = [c1, c2] →
       c2.amount = c1.amount * (995 / 1000 : ℚ) ∧ c2.fromMint = c1.toMint ∧
       c2.toMint = c1.fromMint) := by
  have h1 : (processWallet t st w).calls =
      [⟨t, w.label, MINTS_SOL, w.target.mint, w.amount, true⟩,
       ⟨t + w.dwellSec, w.label, w.target.mint, MINTS_SOL, w.amount * (995 / 1000 : ℚ),
        (executeSwapS (executeSwapS st w.forwardProviders).2 w.hedgeProviders).1⟩] := by
    simp [processWallet, h]
  refine ⟨h1, ?_⟩
  intro c1 c2 hc
  rw [h1] at hc
  simp only [List.cons.injEq, and_true] at hc
  obtain ⟨hc1, hc2⟩ := hc
  subst hc1
  subst hc2
  exact ⟨rfl, rfl, rfl⟩

/-- Wallet script of the C7 witness. -/
def plan7 : WalletPlan :=
  ⟨"bbb222", ⟨"mSoLzYCxHdYgdzU16g5QSh3i5K3z3KZK7ytfqcJm7So", "mSOL"⟩, 7 / 10000,
   [⟨"DFlow", true, SwapOutcome.ok "sigF"⟩], 180,
   [⟨"Raydium", true, SwapOutcome.ok "sigH"⟩], 30⟩

/-- Witness for C7: forward swap of 0.0007 SOL into mSOL, hedge swap
back of exactly 0.0007 × 0.995. -/
theorem C7_hedge_amount_witness :
    ((processWallet 30000 ⟨0, "0"⟩ plan7).calls.map fun c => (c.fromMint, c.toMint)) =
      [(MINTS_SOL, "mSoLzYCxHdYgdzU16g5QSh3i5K3z3KZK7ytfqcJm7So"),
       ("mSoLzYCxHdYgdzU16g5QSh3i5K3z3KZK7ytfqcJm7So", MINTS_SOL)] ∧
    ((processWallet 30000 ⟨0, "0"⟩ plan7).calls.map fun c => c.amount) =
      [7 / 10000, 7 / 10000 * (995 / 1000)] := by
  have h := (C7_hedge_amount 30000 ⟨0, "0"⟩ plan7 (by decide)).1
  rw [h]
  constructor
  · simp [plan7]
  · simp [plan7]

/-! Claim C8. -/

/-- Claim C8: the hedge leg is best-effort.  If the forward swap of an
identity fails there is exactly one attempt for that identity (no hedge
is issued) and the loop simply moves on after the inter-identity delay;
if the forward leg succeeds, exactly two attempts occur regardless of
whether the hedge succeeds or fails (a failed hedge is never retried or
reconciled); and the round always continues with the remaining
identities whatever the outcome. -/
theorem C8_hedge_best_effort :
    (∀ (t : Nat) (st : BotState) (w : WalletPlan),
       (executeSwapS st w.forwardProviders).1 = false →
       (processWallet t st w).calls =
         [⟨t, w.label, MINTS_SOL, w.target.mint, w.amount, false⟩] ∧
       (processWallet t st w).time = t + w.interDelaySec) ∧
    (∀ (t : Nat) (st : BotState) (w : WalletPlan),
       (executeSwapS st w.forwardProviders).1 = true →
       (processWallet t st w).calls.length = 2) ∧
    (∀ (t : Nat) (st : BotState) (w : WalletPlan) (ws : List WalletPlan),
       (runRound t st (w :: ws)).calls =
         (processWallet t st w).calls ++
           (runRound (processWallet t st w).time (processWallet t st w).state ws).calls) := by
  refine ⟨?_, ?_, ?_⟩
  · intro t st w h
    constructor <;> simp [processWallet, h]
  · intro t st w h
    simp [processWallet, h]
  · intro t st w ws
    simp [runRound]

/-- Wallet script whose forward leg fails (C8 witness). -/
def plan8f : WalletPlan :=
  ⟨"ccc333", ⟨"bSo13r4TkiE4KumL71LsHTPpL2euBYLFx6h9HP3piy1", "bSOL"⟩, 3 / 10000,
   [⟨"DFlow", true, SwapOutcome.getSwapFail "no route found"⟩], 150,
   [⟨"DFlow", true, SwapOutcome.ok "never used"⟩], 25⟩

/-- Wallet script whose forward leg succeeds and hedge leg fails (C8
witness). -/
def plan8h : WalletPlan :=
  ⟨"ddd444", ⟨"bSo13r4TkiE4KumL71LsHTPpL2euBYLFx6h9HP3piy1", "bSOL"⟩, 3 / 10000,
   [⟨"DFlow", true, SwapOutcome.ok "sigF"⟩], 150,
   [⟨"Raydium", true, SwapOutcome.sendFail "submit failed"⟩], 25⟩

/-- Witness for C8: a failed forward leg yields one attempt and no
hedge; a successful forward leg with a failing hedge yields exactly two
attempts. -/
theorem C8_hedge_best_effort_witness :
    (processWallet 40000 ⟨5, "0"⟩ plan8f).calls.length = 1 ∧
    (processWallet 40000 ⟨5, "0"⟩ plan8h).calls.length = 2 := by
  have h1 := C8_hedge_best_effort.1 40000 ⟨5, "0"⟩ plan8f (by decide)
  have h2 := C8_hedge_best_effort.2.1 40000 ⟨5, "0"⟩ plan8h (by decide)
  refine ⟨?_, h2⟩
  rw [h1.1]
  rfl

/-! Claim C9. -/

/-- Claim C9: the per-round shuffle
`[...this.wallets].sort(() => Math.random() - 0.5)` is a bijection over
the identity pool: for every comparator the sorted list is a
permutation of the input, so it contains exactly the identities of the
pool with exactly their original multiplicities — none duplicated, none
dropped. -/
theorem C9_shuffle_is_permutation (cmp : String → String → Bool) (l : List String) :
    (shuffleWallets cmp l).Perm l ∧
    ∀ a : String, (shuffleWallets cmp l).count a = l.count a := by
  have hp : (shuffleWallets cmp l).Perm l := List.mergeSort_perm l cmp
  exact ⟨hp, fun a => hp.count_eq a⟩

/-! Claim C10. -/

/-- First wallet script of the C10 instance: both legs succeed. -/
def plan10a : WalletPlan :=
  ⟨"eee555", ⟨"J1toso1uCk3RLmjorhTtrVwY9HJ7X8V9yYac6Y7kGCPn", "JitoSOL"⟩, 2 / 10000,
   [⟨"DFlow", true, SwapOutcome.ok "s1"⟩], 130,
   [⟨"DFlow", true, SwapOutcome.ok "s2"⟩], 21⟩

/-- Second wallet script of the C10 instance: both legs succeed. -/
def plan10b : WalletPlan :=
  ⟨"fff666", ⟨"mSoLzYCxHdYgdzU16g5QSh3i5K3z3KZK7ytfqcJm7So", "mSOL"⟩, 2 / 10000,
   [⟨"Raydium", true, SwapOutcome.ok "s3"⟩], 140,
   [⟨"Raydium", true, SwapOutcome.ok "s4"⟩], 22⟩

/-- Round script of the C10 instance. -/
def iter10 : IterScript := ⟨[plan10a, plan10b], 480⟩

/-- Claim C10: the daily-cap gate `dailyTxCount >= 120` is evaluated
only at the start of a loop iteration (an in-window iteration that is
at or above the cap after the reset makes no swap attempt and sleeps),
every successful submission of either leg increments the counter by
one (two per fully successful identity), within one round the counter
rises by at most two per identity, and it can indeed pass the cap
mid-round: starting a round at 119 with two fully successful identities
ends at 123 > 120. -/
theorem C10_cap_gate_granularity :
    (∀ (t : Nat) (st : BotState) (it : IterScript),
       isWorkTime (hourOf t) = true →
       120 ≤ (resetDailyCounter st (dateStr t)).dailyTxCount →
       (loopStep t st it).calls = [] ∧
       (loopStep t st it).state = resetDailyCounter st (dateStr t) ∧
       (loopStep t st it).time = t + 600) ∧
    (∀ (t : Nat) (st : BotState) (plans : List WalletPlan),
       (runRound t st plans).state.dailyTxCount ≤ st.dailyTxCount + 2 * plans.length) ∧
    (∀ (t : Nat) (st : BotState) (w : WalletPlan),
       (executeSwapS st w.forwardProviders).1 = true →
       (executeSwapS (executeSwapS st w.forwardProviders).2 w.hedgeProviders).1 = true →
       (processWallet t st w).state.dailyTxCount = st.dailyTxCount + 2) ∧
    ((loopStep 28800 ⟨119, "0"⟩ iter10).state.dailyTxCount = 123 ∧ 120 < 123) := by
  refine ⟨?_, ?_, ?_, ?_, ?_⟩
  · intro t st it hw hcap
    have hw2 : (isWorkTime (hourOf t) = false) = False := by simp [hw]
    refine ⟨?_, ?_, ?_⟩ <;> simp [loopStep, hw2, hcap, Nat.not_lt.mpr hcap]
  · intro t st plans
    exact (runRound_count_bounds plans t st).2
  · intro t st w h1 h2
    have h1x : (executeSwap w.forwardProviders).success.isSome = true := h1
    have h2x : (executeSwap w.hedgeProviders).success.isSome = true := h2
    have d1 : (executeSwap w.forwardProviders).counterDelta = 1 := by
      rw [executeSwap_delta, h1x]
      simp
    have d2 : (executeSwap w.hedgeProviders).counterDelta = 1 := by
      rw [executeSwap_delta, h2x]
      simp
    simp [processWallet, executeSwapS, h1x, d1, d2]
  · decide
  · decide

/-- Witness for C10: at the cap the iteration makes no attempt and
sleeps; the round bound and the two-increments-per-identity fact at
concrete inputs. -/
theorem C10_cap_gate_granularity_witness :
    (loopStep 28800 ⟨120, "0"⟩ iter10).calls = [] ∧
    (loopStep 28800 ⟨120, "0"⟩ iter10).time = 29400 ∧
    (runRound 28800 ⟨119, "0"⟩ [plan10a, plan10b]).state.dailyTxCount ≤ 123 ∧
    (processWallet 28800 ⟨119, "0"⟩ plan10a).state.dailyTxCount = 121 := by
  have h1 := C10_cap_gate_granularity.1 28800 ⟨120, "0"⟩ iter10 (by decide) (by decide)
  have h2 := C10_cap_gate_granularity.2.1 28800 ⟨119, "0"⟩ [plan10a, plan10b]
  have h3 := C10_cap_gate_granularity.2.2.1 28800 ⟨119, "0"⟩ plan10a (by decide) (by decide)
  refine ⟨h1.1, ?_, ?_, ?_⟩
  · rw [h1.2.2]
  · simpa using h2
  · simpa using h3

end SwapBot
